import Mathlib

/-!
Shallow embedding of `src/handler/semanticTokensHighlights/buffer.ts`
(SemanticTokensBuffer): the semantic-tokens decoder, the delta (edits)
applier, the per-buffer result cache and the request orchestration.

Machine integers of the source are `Nat` (the token stream is `uinteger[]`);
JS `undefined` is `Option.none`; the stateful class is an explicit
`BufferState` record, and calls to external collaborators (provider,
`window.applyDiffHighlights`, `buffer.clearNamespace`, the cancellation
source) are recorded as an `Effect` list.
-/

set_option maxRecDepth 8192

namespace SemTokBuf

/-- Legend supplied by the provider: ordered token-type names and ordered
token-modifier names. -/
structure SemanticTokensLegend where
  tokenTypes : List String
  tokenModifiers : List String
deriving DecidableEq, Repr

/-- Modelled from the spec: `doc.addHighlights(res, hlGroup, range, opts)`
(document model, not part of this source file) turns a group name, a
single-line range and the options into one record appended to `res`; the
spec describes the exchanged unit as `{group, range, options}` with
`combine` and optional `start_incl` / `end_incl` flags. -/
structure HighlightItem where
  hlGroup : String
  startLine : Nat
  startCharacter : Nat
  endLine : Nat
  endCharacter : Nat
  combine : Bool
  start_incl : Option Bool
  end_incl : Option Bool
deriving DecidableEq, Repr

/-- Relative highlight (source lines 17-23). `tokenType` holds
`legend.tokenTypes[typeIndex]`, which in JS is `undefined` when the index
is out of range, hence the `Option`. -/
structure RelativeHighlight where
  tokenType : Option String
  tokenModifiers : List String
  deltaLine : Nat
  deltaStartCharacter : Nat
  length : Nat
deriving DecidableEq, Repr

/-- The JS bit test `tokens[i + 4] & (1 << m)` converts both operands to
32-bit integers, so it looks at bit `m % 32` of the low 32 bits. -/
def modifierBitTest (bits m : Nat) : Bool :=
  Nat.testBit (bits % 2 ^ 32) (m % 32)

/-- `legend.tokenModifiers.filter((_, m) => tokens[i + 4] & (1 << m))`
(source line 138): keep the modifier names whose index bit is set. -/
def resolveModifiers (names : List String) (bits : Nat) : List String :=
  (names.enum.filter (fun p => modifierBitTest bits p.1)).map Prod.snd

/-- First decode pass (source lines 132-140): cut the flat array into
quintuples and resolve the type index and the modifier bitset against the
legend.  A trailing fragment shorter than five entries would give the JS
code `undefined` reads and NaN positions; the embedding keeps whole
quintuples only, which covers every well-formed stream (length a multiple
of five). -/
def toRelatives (legend : SemanticTokensLegend) : List Nat → List RelativeHighlight
  | deltaLine :: deltaStartCharacter :: len :: typeIndex :: modifierBits :: rest =>
      { tokenType := legend.tokenTypes.get? typeIndex
        tokenModifiers := resolveModifiers legend.tokenModifiers modifierBits
        deltaLine := deltaLine
        deltaStartCharacter := deltaStartCharacter
        length := len } :: toRelatives legend rest
  | _ => []

/-- One emitted item (source lines 156-163): group is
`HLGROUP_PREFIX + tokenType` where the fixed group head is the string
`CocSem_` (JS coerces an undefined type name to the string `undefined`);
`combine` is always `false`; for the type names `variable` and `string`
both inclusivity flags are set, otherwise they stay unset. -/
def emitItem (tokenType : Option String) (lnum startCharacter endCharacter : Nat) :
    HighlightItem :=
  { hlGroup := "CocSem_" ++ (match tokenType with | some s => s | none => "undefined")
    startLine := lnum
    startCharacter := startCharacter
    endLine := lnum
    endCharacter := endCharacter
    combine := false
    start_incl :=
      if tokenType = some "variable" ∨ tokenType = some "string" then some true else none
    end_incl :=
      if tokenType = some "variable" ∨ tokenType = some "string" then some true else none }

/-- Second decode pass (source lines 142-164): running cursor
`(currentLine, currentCharacter)`; `lnum = currentLine + deltaLine`;
`startCharacter` is relative on the same line and absolute on a new line;
the cursor advances to the start of the emitted token. -/
def decodeAbsolute (currentLine currentCharacter : Nat) :
    List RelativeHighlight → List HighlightItem
  | [] => []
  | r :: rest =>
      let lnum := currentLine + r.deltaLine
      let startCharacter :=
        if r.deltaLine = 0 then currentCharacter + r.deltaStartCharacter
        else r.deltaStartCharacter
      let endCharacter := startCharacter + r.length
      emitItem r.tokenType lnum startCharacter endCharacter ::
        decodeAbsolute lnum startCharacter rest

/-- The whole decode of source lines 132-164: relatives first, then the
cursor fold starting from `(0, 0)`. -/
def decodeTokens (legend : SemanticTokensLegend) (tokens : List Nat) :
    List HighlightItem :=
  decodeAbsolute 0 0 (toRelatives legend tokens)

/-- One edit of a `SemanticTokensDelta` (LSP): a splice instruction against
the previous flat token array. -/
structure SemanticTokensEdit where
  start : Nat
  deleteCount : Nat
  data : List Nat
deriving DecidableEq, Repr

/-- One edit application (source lines 124-128):
`tokens.splice(e.start, e.deleteCount, ...e.data)` when `deleteCount > 0`,
`tokens.splice(e.start, 0, ...e.data)` otherwise.  JS `splice` clamps
`start` and `deleteCount` to the available range, which `take` / `drop`
do as well. -/
def spliceEdit (tokens : List Nat) (e : SemanticTokensEdit) : List Nat :=
  if e.deleteCount > 0 then
    List.take e.start tokens ++ e.data ++ List.drop (e.start + e.deleteCount) tokens
  else
    List.take e.start tokens ++ e.data ++ List.drop e.start tokens

/-- `result.edits.forEach(...)` (source lines 123-129): each edit splices
the array state left by the previous one. -/
def applyEdits (tokens : List Nat) (edits : List SemanticTokensEdit) : List Nat :=
  edits.foldl spliceEdit tokens

/-- The cached previous result (source lines 29-33): document version,
opaque `resultId` and the flat token array; the last two are optional in
the source type. -/
structure SemanticTokensPreviousResult where
  version : Nat
  resultId : Option String
  tokens : Option (List Nat)
deriving DecidableEq, Repr

/-- The mutable fields of `SemanticTokensBuffer`: the in-flight
cancellation source (a live handle or `undefined`), whether the debounced
`highlight` callback is pending, the result cache `previousResults`, and
the `_highlights` snapshot.  All start `undefined` except the debounce,
which the constructor arms by calling `this.highlight()`. -/
structure BufferState where
  tokenSource : Option Unit
  debouncePending : Bool
  previousResults : Option SemanticTokensPreviousResult
  _highlights : Option (List HighlightItem)
deriving DecidableEq, Repr

/-- The state a fresh `SemanticTokensBuffer` is in after its constructor
(source lines 40-48). -/
def initialState : BufferState :=
  { tokenSource := none
    debouncePending := true
    previousResults := none
    _highlights := none }

/-- Calls to external collaborators, recorded in order. -/
inductive Effect where
  | provideFull
  | provideEdits
  | cancelRequest
  | clearNamespace
  | applyDiffHighlights
deriving DecidableEq, Repr

/-- What the awaited provider call resolved to: a full `SemanticTokens`
(`result.data`) or a `SemanticTokensDelta` (`result.edits`); the
orchestrator branches on the response shape (`SemanticTokens.is(result)`,
source line 119), not on which request it sent. -/
inductive ProviderResult where
  | full (resultId : Option String) (data : List Nat)
  | delta (resultId : Option String) (edits : List SemanticTokensEdit)
deriving DecidableEq, Repr

/-- How `requestHighlights` ends: a normal return (`some items` or the
`undefined` of a discarded response), or a thrown JS `TypeError` (the
null-dereference paths around `previousResult.tokens`). -/
inductive RequestOutcome where
  | returned (items : Option (List HighlightItem))
  | threw
deriving DecidableEq, Repr

/-- JS truthiness of `previousResult?.resultId` (source line 112):
`undefined` short-circuits, and both `undefined` and the empty string are
falsy. -/
def truthyResultId : Option SemanticTokensPreviousResult → Bool
  | none => false
  | some p =>
      match p.resultId with
      | none => false
      | some s => s != ""

/-- Which provider method the orchestrator invokes (source lines 112-116):
`provideDocumentSemanticTokensEdits` when the provider has an edit
provider and the (possibly `forceFull`-nulled) previous result has a
truthy `resultId`, else `provideDocumentSemanticTokens`. -/
def requestKindEffect (hasEditProvider : Bool)
    (previousResult : Option SemanticTokensPreviousResult) : Effect :=
  if hasEditProvider && truthyResultId previousResult then Effect.provideEdits
  else Effect.provideFull

/-- The part of `requestHighlights` after the awaited provider response
(source lines 117-166): discard on cancellation or an absent result;
otherwise take `result.data` or splice the cached array, overwrite
`previousResults`, decode, and overwrite `_highlights`.  The delta branch
with no usable cached array reproduces the JS control flow: reading
`previousResult.tokens` off `null` throws at once; an `undefined` tokens
array throws at the first `splice` — or, with no edits, only at
`tokens.length` in the decode loop, after the cache was already
rewritten. -/
def requestHighlightsCore (legend : SemanticTokensLegend) (version : Nat)
    (s : BufferState) (previousResult : Option SemanticTokensPreviousResult)
    (cancelled : Bool) (response : Option ProviderResult) :
    BufferState × RequestOutcome :=
  match response with
  | none => (s, RequestOutcome.returned none)
  | some result =>
    if cancelled then (s, RequestOutcome.returned none)
    else
      match result with
      | ProviderResult.full resultId data =>
          let tokens := data
          let res := decodeTokens legend tokens
          ({ s with previousResults := some ⟨version, resultId, some tokens⟩
                    _highlights := some res },
           RequestOutcome.returned (some res))
      | ProviderResult.delta resultId edits =>
          match previousResult with
          | none => (s, RequestOutcome.threw)
          | some p =>
            match p.tokens with
            | none =>
                if edits.isEmpty then
                  ({ s with previousResults := some ⟨version, resultId, none⟩ },
                   RequestOutcome.threw)
                else (s, RequestOutcome.threw)
            | some base =>
                let tokens := applyEdits base edits
                let res := decodeTokens legend tokens
                ({ s with previousResults := some ⟨version, resultId, some tokens⟩
                          _highlights := some res },
                 RequestOutcome.returned (some res))

/-- `requestHighlights(token, forceFull)` (source lines 105-167).
`previousResult` is nulled when `forceFull` (line 109); the effect records
which provider method was awaited; `cancelled` is the token state when the
response is observed (line 117); `response` is what the provider call
resolved to. -/
def requestHighlights (legend : SemanticTokensLegend) (version : Nat)
    (s : BufferState) (hasEditProvider forceFull cancelled : Bool)
    (response : Option ProviderResult) :
    BufferState × RequestOutcome × List Effect :=
  let previousResult := if forceFull then none else s.previousResults
  let core := requestHighlightsCore legend version s previousResult cancelled response
  (core.1, core.2, [requestKindEffect hasEditProvider previousResult])

/-- `cancel()` (source lines 186-192): cancel and drop the live
cancellation source, if any. -/
def cancel (s : BufferState) : BufferState × List Effect :=
  match s.tokenSource with
  | some _ => ({ s with tokenSource := none }, [Effect.cancelRequest])
  | none => (s, [])

/-- `onChange()` (source lines 50-53): cancel, then re-arm the debounced
`highlight`. -/
def onChange (s : BufferState) : BufferState × List Effect :=
  let c := cancel s
  ({ c.1 with debouncePending := true }, c.2)

/-- `setState(enabled)` (source lines 92-99): arm the debounce when
enabling; clear the pending debounce and `clearNamespace` the rendered
highlights when disabling. -/
def setState (s : BufferState) (enabled : Bool) : BufferState × List Effect :=
  if enabled then ({ s with debouncePending := true }, [])
  else ({ s with debouncePending := false }, [Effect.clearNamespace])

/-- `dispose()` (source lines 194-199): empty the `_highlights` snapshot,
clear the debounce, drop the result cache, then `cancel()`.  Note it never
calls `clearHighlight`. -/
def dispose (s : BufferState) : BufferState × List Effect :=
  cancel { s with _highlights := some []
                  debouncePending := false
                  previousResults := none }

/-- The `highlights` getter (source lines 63-65): the raw `_highlights`
field, `undefined` until first written. -/
def highlights (s : BufferState) : Option (List HighlightItem) :=
  s._highlights

/-- `doHighlight()` (source lines 169-180): no-op when not enabled; else
cancel the previous request, install a fresh cancellation source, call
`requestHighlights(token, false)`; on `undefined` items (or a rejected
await) stop; else diff against the rendered state (`diff` is the external
collaborator's answer), drop the token source, and apply the diff unless
the token was cancelled meanwhile or there is nothing to apply. -/
def doHighlight (legend : SemanticTokensLegend) (version : Nat)
    (s : BufferState) (enabled hasEditProvider cancelledAtResponse : Bool)
    (response : Option ProviderResult) (diff : Option Unit)
    (cancelledAfterDiff : Bool) : BufferState × List Effect :=
  if enabled then
    let cancelPair := cancel s
    let s1 := { cancelPair.1 with tokenSource := some () }
    let req := requestHighlights legend version s1 hasEditProvider false
      cancelledAtResponse response
    match req.2.1 with
    | RequestOutcome.threw => (req.1, cancelPair.2 ++ req.2.2)
    | RequestOutcome.returned none => (req.1, cancelPair.2 ++ req.2.2)
    | RequestOutcome.returned (some _) =>
        let s2 := { req.1 with tokenSource := none }
        if cancelledAfterDiff || diff.isNone then (s2, cancelPair.2 ++ req.2.2)
        else (s2, cancelPair.2 ++ req.2.2 ++ [Effect.applyDiffHighlights])
  else (s, [])

/-- `forceHighlight()` (source lines 55-58): clear the pending debounce,
then run `doHighlight` — which passes `forceFull = false` to
`requestHighlights` (source line 173). -/
def forceHighlight (legend : SemanticTokensLegend) (version : Nat)
    (s : BufferState) (enabled hasEditProvider cancelledAtResponse : Bool)
    (response : Option ProviderResult) (diff : Option Unit)
    (cancelledAfterDiff : Bool) : BufferState × List Effect :=
  doHighlight legend version { s with debouncePending := false } enabled
    hasEditProvider cancelledAtResponse response diff cancelledAfterDiff

/-- One quintuple `(deltaLine, deltaStartChar, length, typeIndex,
modifierBitset)` of the flat stream. -/
abbrev Quintuple := Nat × Nat × Nat × Nat × Nat

/-- A flat token array of whole quintuples — exactly the arrays whose
length is a multiple of five. -/
def flattenTokens : List Quintuple → List Nat
  | [] => []
  | (dl, dc, len, ty, mods) :: rest => dl :: dc :: len :: ty :: mods :: flattenTokens rest

/-- Follows the spec's words: the running start positions — `line` is the
sum of the `deltaLine` values so far, and `startChar` restarts at
`deltaStartChar` whenever `deltaLine > 0` and otherwise accumulates
`deltaStartChar` onto the previous token's start character. -/
def specStartsFrom (line char : Nat) : List Quintuple → List (Nat × Nat)
  | [] => []
  | (dl, dc, _, _, _) :: rest =>
      (line + dl, if 0 < dl then dc else char + dc) ::
        specStartsFrom (line + dl) (if 0 < dl then dc else char + dc) rest

/-- The spec-side start positions of a whole stream, from the origin. -/
def specStarts (l : List Quintuple) : List (Nat × Nat) := specStartsFrom 0 0 l

/-- The start position of an emitted item. -/
def startPos (it : HighlightItem) : Nat × Nat := (it.startLine, it.startCharacter)

/-- Non-decreasing order on `(line, startChar)` pairs. -/
def posLE (a b : Nat × Nat) : Prop := a.1 < b.1 ∨ (a.1 = b.1 ∧ a.2 ≤ b.2)

theorem toRelatives_flatten_cons (legend : SemanticTokensLegend)
    (dl dc len ty mods : Nat) (l : List Quintuple) :
    toRelatives legend (flattenTokens ((dl, dc, len, ty, mods) :: l)) =
      { tokenType := legend.tokenTypes.get? ty
        tokenModifiers := resolveModifiers legend.tokenModifiers mods
        deltaLine := dl
        deltaStartCharacter := dc
        length := len } :: toRelatives legend (flattenTokens l) := rfl

theorem decodeAbsolute_map_startPos (legend : SemanticTokensLegend) :
    ∀ (l : List Quintuple) (line char : Nat),
      (decodeAbsolute line char (toRelatives legend (flattenTokens l))).map startPos =
        specStartsFrom line char l := by
  intro l
  induction l with
  | nil => intro line char; rfl
  | cons q l ih =>
      obtain ⟨dl, dc, len, ty, mods⟩ := q
      intro line char
      rw [toRelatives_flatten_cons]
      by_cases h : dl = 0
      · subst h
        simp [decodeAbsolute, specStartsFrom, startPos, emitItem, ih]
      · simp [decodeAbsolute, specStartsFrom, startPos, emitItem, ih, h,
          Nat.pos_of_ne_zero h]

theorem chain_specStartsFrom :
    ∀ (l : List Quintuple) (line char : Nat),
      List.Chain posLE (line, char) (specStartsFrom line char l) := by
  intro l
  induction l with
  | nil => intro line char; exact List.Chain.nil
  | cons q l ih =>
      obtain ⟨dl, dc, len, ty, mods⟩ := q
      intro line char
      show List.Chain posLE (line, char)
        ((line + dl, if 0 < dl then dc else char + dc) ::
          specStartsFrom (line + dl) (if 0 < dl then dc else char + dc) l)
      refine List.Chain.cons ?_ (ih _ _)
      by_cases h : 0 < dl
      · exact Or.inl (Nat.lt_add_of_pos_right h)
      · have hdl : dl = 0 := Nat.eq_zero_of_not_pos h
        subst hdl
        simp only [if_neg h, Nat.add_zero]
        exact Or.inr ⟨rfl, Nat.le_add_right _ _⟩

end SemTokBuf

open SemTokBuf

/-- C1: for the legend with types `[variable, function]` and no modifiers,
decoding the flat array `[0,0,3,0,0, 0,4,2,1,0]` yields exactly two
highlight items in order: range `(0,0,0,3)` with group `CocSem_variable`
and both inclusivity flags set, then range `(0,4,0,6)` with group
`CocSem_function` with both flags unset; `combine` is `false` on both. -/
theorem decode_example_two_items :
    decodeTokens ⟨["variable", "function"], []⟩
      [0, 0, 3, 0, 0, 0, 4, 2, 1, 0] =
      [{ hlGroup := "CocSem_variable", startLine := 0, startCharacter := 0,
         endLine := 0, endCharacter := 3, combine := false,
         start_incl := some true, end_incl := some true },
       { hlGroup := "CocSem_function", startLine := 0, startCharacter := 4,
         endLine := 0, endCharacter := 6, combine := false,
         start_incl := none, end_incl := none }] := by decide

/-- C2: for every flat token array of whole quintuples, the decoded items'
start positions equal the running cumulative sums of the deltas (`line`
sums the `deltaLine` values; `startChar` restarts at `deltaStartChar`
after a line break and otherwise accumulates onto the previous start
character), and the positions are non-decreasing in `(line, startChar)`. -/
theorem decode_cumulative_and_monotone (legend : SemanticTokensLegend)
    (l : List Quintuple) :
    (decodeTokens legend (flattenTokens l)).map startPos = specStarts l ∧
      List.Chain' posLE ((decodeTokens legend (flattenTokens l)).map startPos) := by
  have hmap : (decodeTokens legend (flattenTokens l)).map startPos = specStarts l :=
    decodeAbsolute_map_startPos legend l 0 0
  refine ⟨hmap, ?_⟩
  rw [hmap]
  have hchain : List.Chain posLE (0, 0) (specStarts l) := chain_specStartsFrom l 0 0
  exact (List.Chain'.tail (l := (0, 0) :: specStarts l) hchain)

/-- C3: delta edits are applied sequentially, each splicing the array state
left by the previous one: on `[0,0,1,0,0]`, inserting `[1,2,3,0,0]` at 5
and then deleting 5 at 0 yields `[1,2,3,0,0]`; applying an edit list steps
through `spliceEdit` one edit at a time; and a `deleteCount = 0` edit is a
pure insertion at `start`. -/
theorem applyEdits_sequential_splice :
    applyEdits [0, 0, 1, 0, 0]
      [⟨5, 0, [1, 2, 3, 0, 0]⟩, ⟨0, 5, []⟩] = [1, 2, 3, 0, 0] ∧
    (∀ (t : List Nat) (e : SemanticTokensEdit) (es : List SemanticTokensEdit),
      applyEdits t (e :: es) = applyEdits (spliceEdit t e) es) ∧
    (∀ (t : List Nat) (s : Nat) (d : List Nat),
      spliceEdit t ⟨s, 0, d⟩ = List.take s t ++ d ++ List.drop s t) := by
  refine ⟨by decide, fun t e es => rfl, fun t s d => ?_⟩
  simp [spliceEdit]

/-- A rendered item used as the pre-existing snapshot in examples. -/
def exampleVariableItem : HighlightItem :=
  { hlGroup := "CocSem_variable", startLine := 0, startCharacter := 0,
    endLine := 0, endCharacter := 3, combine := false,
    start_incl := some true, end_incl := some true }

/-- C4 fails on the code: a quintuple whose `typeIndex` is beyond the
legend raises no decode error — it is emitted with group
`CocSem_undefined` (JS `undefined` coerced into the group name), the
`_highlights` snapshot is replaced, and the render still runs. -/
theorem typeIndex_out_of_range_counterexample :
    decodeTokens ⟨["variable", "function"], []⟩ [0, 0, 1, 5, 0] =
      [{ hlGroup := "CocSem_undefined", startLine := 0, startCharacter := 0,
         endLine := 0, endCharacter := 1, combine := false,
         start_incl := none, end_incl := none }] ∧
    (requestHighlights ⟨["variable", "function"], []⟩ 2
        { tokenSource := some (), debouncePending := false,
          previousResults := none,
          _highlights := some [exampleVariableItem] }
        false false false
        (some (ProviderResult.full none [0, 0, 1, 5, 0]))).1._highlights ≠
      some [exampleVariableItem] ∧
    Effect.applyDiffHighlights ∈
      (doHighlight ⟨["variable", "function"], []⟩ 2
        { tokenSource := none, debouncePending := false, previousResults := none,
          _highlights := none }
        true false false
        (some (ProviderResult.full none [0, 0, 1, 5, 0])) (some ()) false).2 := by
  decide

/-- C4 amended: an out-of-range `typeIndex` is not signalled as an error;
the quintuple is decoded into an item with group `CocSem_undefined` at the
usual position, with `combine = false` and no inclusivity flags. -/
theorem typeIndex_out_of_range_emits_undefined (legend : SemanticTokensLegend)
    (dl dc len ty mods : Nat) (h : legend.tokenTypes.get? ty = none) :
    decodeTokens legend [dl, dc, len, ty, mods] =
      [{ hlGroup := "CocSem_undefined", startLine := dl, startCharacter := dc,
         endLine := dl, endCharacter := dc + len, combine := false,
         start_incl := none, end_incl := none }] := by
  have h1 : toRelatives legend [dl, dc, len, ty, mods] =
      [{ tokenType := legend.tokenTypes.get? ty,
         tokenModifiers := resolveModifiers legend.tokenModifiers mods,
         deltaLine := dl, deltaStartCharacter := dc, length := len }] := rfl
  rw [h] at h1
  rw [decodeTokens, h1]
  by_cases hdl : dl = 0
  · subst hdl
    simp [decodeAbsolute, emitItem]
  · simp [decodeAbsolute, emitItem, hdl]

/-- Witness for the amended C4 at a concrete out-of-range input. -/
theorem typeIndex_out_of_range_emits_undefined_witness :
    decodeTokens ⟨[], []⟩ [1, 2, 3, 0, 7] =
      [{ hlGroup := "CocSem_undefined", startLine := 1, startCharacter := 2,
         endLine := 1, endCharacter := 5, combine := false,
         start_incl := none, end_incl := none }] :=
  typeIndex_out_of_range_emits_undefined ⟨[], []⟩ 1 2 3 0 7 rfl

namespace SemTokBuf

theorem cancel_fst (s : BufferState) :
    (cancel s).1 = { s with tokenSource := none } := by
  cases s with
  | mk ts dp pr hl => cases ts <;> rfl

theorem cancel_snd (s : BufferState) :
    (cancel s).2 = if s.tokenSource.isSome then [Effect.cancelRequest] else [] := by
  cases s with
  | mk ts dp pr hl => cases ts <;> rfl

theorem requestHighlights_effects (legend : SemanticTokensLegend) (version : Nat)
    (s : BufferState) (hasEditProvider forceFull cancelled : Bool)
    (response : Option ProviderResult) :
    (requestHighlights legend version s hasEditProvider forceFull cancelled response).2.2 =
      [requestKindEffect hasEditProvider
        (if forceFull then none else s.previousResults)] := rfl

theorem requestKindEffect_ne_applyDiff
    (hasEditProvider : Bool) (p : Option SemanticTokensPreviousResult) :
    requestKindEffect hasEditProvider p ≠ Effect.applyDiffHighlights := by
  unfold requestKindEffect
  split <;> simp

theorem requestKindEffect_ne_cancel
    (hasEditProvider : Bool) (p : Option SemanticTokensPreviousResult) :
    requestKindEffect hasEditProvider p ≠ Effect.cancelRequest := by
  unfold requestKindEffect
  split <;> simp

theorem truthyResultId_eq_true_iff (o : Option SemanticTokensPreviousResult) :
    truthyResultId o = true ↔
      ∃ p rid, o = some p ∧ p.resultId = some rid ∧ rid ≠ "" := by
  cases o with
  | none => simp [truthyResultId]
  | some p =>
      cases hr : p.resultId with
      | none => simp [truthyResultId, hr]
      | some rid => simp [truthyResultId, hr, bne_iff_ne]

/-- The effect list of an enabled `doHighlight` run: the optional
cancellation of the previous request, the provider call chosen against the
untouched cache, and possibly the final apply. -/
theorem doHighlight_effects_shape (legend : SemanticTokensLegend) (version : Nat)
    (s : BufferState) (hasEditProvider cancelledAtResponse : Bool)
    (response : Option ProviderResult) (diff : Option Unit)
    (cancelledAfterDiff : Bool) :
    ∃ tail, (doHighlight legend version s true hasEditProvider cancelledAtResponse
        response diff cancelledAfterDiff).2 =
      (cancel s).2 ++ [requestKindEffect hasEditProvider s.previousResults] ++ tail ∧
      (tail = [] ∨ tail = [Effect.applyDiffHighlights]) := by
  unfold doHighlight
  dsimp only
  rw [if_pos rfl]
  rw [requestHighlights_effects]
  rw [cancel_fst]
  dsimp only
  split
  · exact ⟨[], by simp, Or.inl rfl⟩
  · exact ⟨[], by simp, Or.inl rfl⟩
  · split
    · exact ⟨[], by simp, Or.inl rfl⟩
    · exact ⟨[Effect.applyDiffHighlights], by simp, Or.inr rfl⟩

end SemTokBuf

/-- C5 fails on the code: with an edits-capable provider and a cached
`resultId`, a forced refresh still issues a delta (edits) request, because
`doHighlight` always passes `forceFull = false` to `requestHighlights`. -/
theorem forceHighlight_delta_counterexample :
    Effect.provideEdits ∈
      (forceHighlight ⟨["variable", "function"], []⟩ 2
        { tokenSource := none, debouncePending := true,
          previousResults := some ⟨1, some "result-1", some [0, 0, 1, 0, 0]⟩,
          _highlights := none }
        true true false
        (some (ProviderResult.full (some "result-2") [0, 0, 2, 0, 0]))
        (some ()) false).2 := by decide

/-- C5 amended: `forceHighlight` clears the pending debounce and runs an
ordinary `doHighlight` cycle; it does not force a full request — when the
provider supports edits and the cache holds a (truthy) `resultId`, the
forced refresh issues a delta request. -/
theorem forceHighlight_keeps_request_kind (legend : SemanticTokensLegend)
    (version : Nat) (s : BufferState) (cancelledAtResponse : Bool)
    (response : Option ProviderResult) (diff : Option Unit)
    (cancelledAfterDiff : Bool)
    (h : truthyResultId s.previousResults = true) :
    forceHighlight legend version s true true cancelledAtResponse response diff
        cancelledAfterDiff =
      doHighlight legend version { s with debouncePending := false } true true
        cancelledAtResponse response diff cancelledAfterDiff ∧
    Effect.provideEdits ∈
      (forceHighlight legend version s true true cancelledAtResponse response diff
        cancelledAfterDiff).2 := by
  refine ⟨rfl, ?_⟩
  have hs : ({ s with debouncePending := false } : BufferState).previousResults =
      s.previousResults := rfl
  obtain ⟨tail, heq, -⟩ := doHighlight_effects_shape legend version
    { s with debouncePending := false } true cancelledAtResponse response diff
    cancelledAfterDiff
  rw [forceHighlight, heq, hs]
  have hkind : requestKindEffect true s.previousResults = Effect.provideEdits := by
    unfold requestKindEffect
    rw [if_pos (by simp [h])]
  rw [hkind]
  simp

/-- Witness for the amended C5 at a concrete cached state. -/
theorem forceHighlight_keeps_request_kind_witness :
    Effect.provideEdits ∈
      (forceHighlight ⟨["variable", "function"], []⟩ 3
        { tokenSource := some (), debouncePending := true,
          previousResults := some ⟨2, some "rid-7", some [0, 0, 3, 0, 0]⟩,
          _highlights := none }
        true true false
        (some (ProviderResult.delta (some "rid-8") [])) (some ()) false).2 :=
  (forceHighlight_keeps_request_kind ⟨["variable", "function"], []⟩ 3
    { tokenSource := some (), debouncePending := true,
      previousResults := some ⟨2, some "rid-7", some [0, 0, 3, 0, 0]⟩,
      _highlights := none }
    false (some (ProviderResult.delta (some "rid-8") [])) (some ()) false
    (by decide)).2

/-- C6: a delta (edits) request is issued only when the provider has an
edit provider, the request was not `forceFull`, and the cache holds a
previous result with a `resultId`; whenever the provider lacks edit
support or the cache holds no `resultId`, the full request is issued. -/
theorem delta_request_needs_cached_resultId (legend : SemanticTokensLegend)
    (version : Nat) (s : BufferState) (hasEditProvider forceFull cancelled : Bool)
    (response : Option ProviderResult) :
    (Effect.provideEdits ∈
        (requestHighlights legend version s hasEditProvider forceFull cancelled
          response).2.2 →
      hasEditProvider = true ∧ forceFull = false ∧
        ∃ p rid, s.previousResults = some p ∧ p.resultId = some rid) ∧
    (¬(hasEditProvider = true ∧
        ∃ p rid, s.previousResults = some p ∧ p.resultId = some rid) →
      Effect.provideFull ∈
        (requestHighlights legend version s hasEditProvider forceFull cancelled
          response).2.2) := by
  rw [requestHighlights_effects]
  constructor
  · intro hmem
    have hk' : Effect.provideEdits = requestKindEffect hasEditProvider
        (if forceFull then none else s.previousResults) := by simpa using hmem
    have hk := hk'.symm
    unfold requestKindEffect at hk
    by_cases hcond : (hasEditProvider &&
        truthyResultId (if forceFull then none else s.previousResults)) = true
    · rw [Bool.and_eq_true] at hcond
      obtain ⟨hhe, htr⟩ := hcond
      cases hf : forceFull with
      | true =>
          rw [hf] at htr
          simp [truthyResultId] at htr
      | false =>
          rw [hf] at htr
          simp at htr
          obtain ⟨p, rid, hp, hrid, -⟩ := (truthyResultId_eq_true_iff _).mp htr
          exact ⟨hhe, rfl, p, rid, hp, hrid⟩
    · rw [if_neg hcond] at hk
      simp at hk
  · intro hno
    have hcond : ¬(hasEditProvider &&
        truthyResultId (if forceFull then none else s.previousResults)) = true := by
      intro hc
      rw [Bool.and_eq_true] at hc
      obtain ⟨hhe, htr⟩ := hc
      cases hf : forceFull with
      | true =>
          rw [hf] at htr
          simp [truthyResultId] at htr
      | false =>
          rw [hf] at htr
          simp at htr
          obtain ⟨p, rid, hp, hrid, -⟩ := (truthyResultId_eq_true_iff _).mp htr
          exact hno ⟨hhe, p, rid, hp, hrid⟩
    unfold requestKindEffect
    rw [if_neg hcond]
    simp

namespace SemTokBuf

theorem requestHighlightsCore_discard (legend : SemanticTokensLegend) (version : Nat)
    (s : BufferState) (prev : Option SemanticTokensPreviousResult)
    (cancelled : Bool) (response : Option ProviderResult)
    (h : cancelled = true ∨ response = none) :
    requestHighlightsCore legend version s prev cancelled response =
      (s, RequestOutcome.returned none) := by
  cases response with
  | none => rfl
  | some r =>
      rcases h with h | h
      · subst h
        rfl
      · exact absurd h (by simp)

theorem requestHighlights_discard (legend : SemanticTokensLegend) (version : Nat)
    (s : BufferState) (hasEditProvider forceFull cancelled : Bool)
    (response : Option ProviderResult)
    (h : cancelled = true ∨ response = none) :
    (requestHighlights legend version s hasEditProvider forceFull cancelled
        response).1 = s ∧
    (requestHighlights legend version s hasEditProvider forceFull cancelled
        response).2.1 = RequestOutcome.returned none := by
  have hc := requestHighlightsCore_discard legend version s
    (if forceFull then none else s.previousResults) cancelled response h
  unfold requestHighlights
  dsimp only
  rw [hc]
  exact ⟨rfl, rfl⟩

end SemTokBuf

/-- Witness for C6: a concrete state where the delta request is issued
and the cache indeed holds a `resultId`. -/
theorem delta_request_needs_cached_resultId_witness :
    true = true ∧ false = false ∧
      ∃ p rid,
        (BufferState.mk none true
          (some ⟨1, some "rid-1", some [0, 0, 1, 0, 0]⟩) none).previousResults =
          some p ∧ p.resultId = some rid :=
  (delta_request_needs_cached_resultId ⟨["variable"], []⟩ 1
    (BufferState.mk none true (some ⟨1, some "rid-1", some [0, 0, 1, 0, 0]⟩) none)
    true false false none).1 (by decide)

/-- C7: a response observed after the request's cancellation token was
triggered, or an absent response, is discarded: the result cache is not
mutated, the `_highlights` snapshot is not replaced, and no
`applyDiffHighlights` render is triggered by that cycle. -/
theorem cancelled_response_discarded (legend : SemanticTokensLegend) (version : Nat)
    (s : BufferState) (enabled hasEditProvider cancelledAtResponse : Bool)
    (response : Option ProviderResult) (diff : Option Unit)
    (cancelledAfterDiff : Bool)
    (h : cancelledAtResponse = true ∨ response = none) :
    (doHighlight legend version s enabled hasEditProvider cancelledAtResponse
        response diff cancelledAfterDiff).1.previousResults = s.previousResults ∧
    (doHighlight legend version s enabled hasEditProvider cancelledAtResponse
        response diff cancelledAfterDiff).1._highlights = s._highlights ∧
    Effect.applyDiffHighlights ∉
      (doHighlight legend version s enabled hasEditProvider cancelledAtResponse
        response diff cancelledAfterDiff).2 := by
  cases enabled with
  | false => exact ⟨rfl, rfl, by simp [doHighlight]⟩
  | true =>
      have hdisc := requestHighlights_discard legend version
        { (cancel s).1 with tokenSource := some () } hasEditProvider false
        cancelledAtResponse response h
      unfold doHighlight
      dsimp only
      rw [if_pos rfl]
      rw [hdisc.2]
      dsimp only
      rw [hdisc.1]
      rw [requestHighlights_effects]
      rw [cancel_fst]
      refine ⟨rfl, rfl, ?_⟩
      rw [cancel_snd]
      intro hmem
      rcases List.mem_append.mp hmem with hmem | hmem
      · revert hmem
        split <;> simp
      · have := List.mem_singleton.mp hmem
        exact requestKindEffect_ne_applyDiff _ _ this.symm

/-- Witness for C7: a cancelled first request's response leaves a concrete
populated state untouched and renders nothing. -/
theorem cancelled_response_discarded_witness :
    (doHighlight ⟨["variable"], []⟩ 4
        (BufferState.mk (some ()) false
          (some ⟨3, some "rid-9", some [0, 0, 1, 0, 0]⟩) (some []))
        true true true (some (ProviderResult.full (some "rid-10") [0, 0, 2, 0, 0]))
        (some ()) false).1.previousResults =
      (BufferState.mk (some ()) false
        (some ⟨3, some "rid-9", some [0, 0, 1, 0, 0]⟩) (some [])).previousResults ∧
    (doHighlight ⟨["variable"], []⟩ 4
        (BufferState.mk (some ()) false
          (some ⟨3, some "rid-9", some [0, 0, 1, 0, 0]⟩) (some []))
        true true true (some (ProviderResult.full (some "rid-10") [0, 0, 2, 0, 0]))
        (some ()) false).1._highlights =
      (BufferState.mk (some ()) false
        (some ⟨3, some "rid-9", some [0, 0, 1, 0, 0]⟩) (some []))._highlights ∧
    Effect.applyDiffHighlights ∉
      (doHighlight ⟨["variable"], []⟩ 4
        (BufferState.mk (some ()) false
          (some ⟨3, some "rid-9", some [0, 0, 1, 0, 0]⟩) (some []))
        true true true (some (ProviderResult.full (some "rid-10") [0, 0, 2, 0, 0]))
        (some ()) false).2 :=
  cancelled_response_discarded ⟨["variable"], []⟩ 4
    (BufferState.mk (some ()) false
      (some ⟨3, some "rid-9", some [0, 0, 1, 0, 0]⟩) (some []))
    true true true (some (ProviderResult.full (some "rid-10") [0, 0, 2, 0, 0]))
    (some ()) false (Or.inl rfl)

/-- C8 fails on the code: `setState(false)` clears the debounce and the
rendered highlights but neither cancels the in-flight request nor
invalidates the result cache, and `dispose` never clears the rendered
highlights through the external collaborator. -/
theorem disable_teardown_counterexample :
    (setState (BufferState.mk (some ()) true
        (some ⟨3, some "rid-3", some [0, 0, 1, 0, 0]⟩) none) false).1.tokenSource =
      some () ∧
    (setState (BufferState.mk (some ()) true
        (some ⟨3, some "rid-3", some [0, 0, 1, 0, 0]⟩) none) false).1.previousResults =
      some ⟨3, some "rid-3", some [0, 0, 1, 0, 0]⟩ ∧
    Effect.clearNamespace ∉
      (dispose (BufferState.mk (some ()) true
        (some ⟨3, some "rid-3", some [0, 0, 1, 0, 0]⟩) none)).2 := by decide

/-- C8 amended: disabling clears the pending debounce and clears the
rendered highlights via `clearNamespace`, leaving the in-flight request
and the result cache untouched; `dispose` empties the snapshot, clears the
debounce, invalidates the cache and cancels any in-flight request, but
issues no `clearNamespace`. -/
theorem disable_teardown_effects (s : BufferState) :
    (setState s false).1.debouncePending = false ∧
    Effect.clearNamespace ∈ (setState s false).2 ∧
    (setState s false).1.tokenSource = s.tokenSource ∧
    (setState s false).1.previousResults = s.previousResults ∧
    (dispose s).1.tokenSource = none ∧
    (dispose s).1.debouncePending = false ∧
    (dispose s).1.previousResults = none ∧
    (dispose s).1._highlights = some [] ∧
    Effect.cancelRequest ∈ (dispose { s with tokenSource := some () }).2 ∧
    Effect.clearNamespace ∉ (dispose s).2 := by
  cases s with
  | mk ts dp pr hl => cases ts <;> simp [setState, dispose, cancel]

/-- The four components of a quintuple the decoder's emitted items depend
on: everything but the modifier bitset. -/
def projQuint (q : Quintuple) : Nat × Nat × Nat × Nat :=
  (q.1, q.2.1, q.2.2.1, q.2.2.2.1)

namespace SemTokBuf

theorem decodeAbsolute_modifier_free (legend : SemanticTokensLegend) :
    ∀ (l l' : List Quintuple) (line char : Nat),
      l.map projQuint = l'.map projQuint →
      decodeAbsolute line char (toRelatives legend (flattenTokens l)) =
        decodeAbsolute line char (toRelatives legend (flattenTokens l')) := by
  intro l
  induction l with
  | nil =>
      intro l' line char h
      cases l' with
      | nil => rfl
      | cons q t => simp at h
  | cons q t ih =>
      intro l' line char h
      cases l' with
      | nil => simp at h
      | cons q' t' =>
          obtain ⟨dl, dc, len, ty, mods⟩ := q
          obtain ⟨dl', dc', len', ty', mods'⟩ := q'
          simp only [List.map_cons, List.cons.injEq, projQuint] at h
          obtain ⟨hq, ht⟩ := h
          simp only [Prod.mk.injEq] at hq
          obtain ⟨h1, h2, h3, h4⟩ := hq
          subst h1
          subst h2
          subst h3
          subst h4
          rw [toRelatives_flatten_cons, toRelatives_flatten_cons]
          simp only [decodeAbsolute]
          exact congrArg _ (ih t' _ _ ht)

end SemTokBuf

/-- C9: the emitted highlight items are independent of the quintuples'
modifier bitsets — two flat streams that agree on `(deltaLine,
deltaStartChar, length, typeIndex)` of every quintuple decode to identical
item sequences, because the resolved modifier names are never used in the
emitted items. -/
theorem decode_independent_of_modifier_bitsets (legend : SemanticTokensLegend)
    (l l' : List Quintuple) (h : l.map projQuint = l'.map projQuint) :
    decodeTokens legend (flattenTokens l) = decodeTokens legend (flattenTokens l') :=
  decodeAbsolute_modifier_free legend l l' 0 0 h

/-- Witness for C9: two concrete streams differing only in the modifier
bitsets decode identically. -/
theorem decode_independent_of_modifier_bitsets_witness :
    decodeTokens ⟨["variable"], ["declaration", "readonly"]⟩
        (flattenTokens [(0, 0, 3, 0, 0), (1, 2, 4, 0, 1)]) =
      decodeTokens ⟨["variable"], ["declaration", "readonly"]⟩
        (flattenTokens [(0, 0, 3, 0, 3), (1, 2, 4, 0, 2)]) :=
  decode_independent_of_modifier_bitsets ⟨["variable"], ["declaration", "readonly"]⟩
    [(0, 0, 3, 0, 0), (1, 2, 4, 0, 1)] [(0, 0, 3, 0, 3), (1, 2, 4, 0, 2)]
    (by decide)

/-- C10: the `highlights` getter yields `undefined` (not an empty list) on
a fresh buffer, stays untouched by `setState`, `onChange`, `cancel` and by
any discarded (cancelled or empty-response) request, and yields the empty
list after `dispose`. -/
theorem highlights_undefined_until_first_decode :
    highlights initialState = none ∧
    (∀ (s : BufferState) (enabled : Bool),
      highlights (setState s enabled).1 = highlights s) ∧
    (∀ s : BufferState, highlights (onChange s).1 = highlights s) ∧
    (∀ s : BufferState, highlights (cancel s).1 = highlights s) ∧
    (∀ (legend : SemanticTokensLegend) (version : Nat) (s : BufferState)
        (hasEditProvider forceFull : Bool) (response : Option ProviderResult),
      highlights (requestHighlights legend version s hasEditProvider forceFull true
        response).1 = highlights s) ∧
    (∀ (legend : SemanticTokensLegend) (version : Nat) (s : BufferState)
        (hasEditProvider forceFull cancelled : Bool),
      highlights (requestHighlights legend version s hasEditProvider forceFull
        cancelled none).1 = highlights s) ∧
    (∀ s : BufferState, highlights (dispose s).1 = some []) := by
  refine ⟨rfl, ?_, ?_, ?_, ?_, ?_, ?_⟩
  · intro s enabled
    cases enabled <;> rfl
  · intro s
    cases s with
    | mk ts dp pr hl => cases ts <;> rfl
  · intro s
    cases s with
    | mk ts dp pr hl => cases ts <;> rfl
  · intro legend version s hasEditProvider forceFull response
    rw [(requestHighlights_discard legend version s hasEditProvider forceFull true
      response (Or.inl rfl)).1]
  · intro legend version s hasEditProvider forceFull cancelled
    rw [(requestHighlights_discard legend version s hasEditProvider forceFull
      cancelled none (Or.inr rfl)).1]
  · intro s
    cases s with
    | mk ts dp pr hl => cases ts <;> rfl
